import Mathlib

/-!
Shallow embedding of the NAO choreography planner
(`pose_definitions.py`, `choreography_structure.py`, `planner.py`,
`play_sequence.py`) and proofs about it.

Modelling conventions:
* Python floats are modelled as rationals (`ℚ`); every duration constant in
  the source is an exact decimal, so the translation is exact.
* A Python logical-state dict `Dict[str, bool]` is modelled as an association
  list `List (String × Bool)` with first-occurrence lookup; dict update keeps
  the position of an existing key and appends a fresh one, exactly as CPython
  dicts behave for the operations the planner performs.
* `frozenset(state.items())` equality is modelled as mutual containment of the
  association lists (set equality of the item pairs).
* Python `round(x, 2)` is modelled as `round (x * 100) / 100` (round half away
  from the lower integer); no value reaching `round` in this development sits
  on an exact half-way point, where the two conventions could differ.
* The `while q:` loop of the segment planner is modelled with an explicit fuel
  argument; `bfs_fuel_sufficient` proves the initial fuel always suffices, so
  the fuelled function computes exactly the source loop.
* A Python function that can `raise` is modelled with `Except String`; the
  only reachable `raise` in the planner is the positive-speed-factor check.
-/

namespace NAO

/-! ## pose_definitions.py -/

/-- A single NAO pose / movement (class `Pose`). -/
structure Pose where
  label : String
  file_id : String
  duration : ℚ
  pre : List (String × Bool)
  post : List (String × Bool)
deriving DecidableEq

def POSE_STAND_INIT : Pose :=
  ⟨"stand_init", "14-StandInit", 4523/1000, [("standing", true)], [("standing", true)]⟩

def POSE_CROUCH : Pose :=
  ⟨"crouch", "6-Crouch", 5688/1000, [("standing", true)], [("standing", false)]⟩

def POSE_SIT : Pose :=
  ⟨"sit", "16-Sit", 22716/1000, [("standing", true)], [("standing", false)]⟩

def POSE_SIT_RELAX : Pose :=
  ⟨"sit_relax", "17-SitRelax", 9845/1000, [("standing", false)], [("standing", false)]⟩

def POSE_STAND : Pose :=
  ⟨"stand", "11-Stand", 23157/1000, [("standing", false)], [("standing", true)]⟩

def POSE_WIPE_FOREHEAD : Pose :=
  ⟨"wipe_forehead", "Wipe_Forehead", 6499/1000, [("standing", true)], [("standing", true)]⟩

def POSE_HELLO : Pose :=
  ⟨"hello", "Hello", 5848/1000, [("standing", true)], [("standing", true)]⟩

def POSE_STAND_ZERO : Pose :=
  ⟨"stand_zero", "15-StandZero", 4782/1000, [("standing", true)], [("standing", true)]⟩

def initial_pose : Pose := POSE_STAND_INIT

def final_pose : Pose := POSE_CROUCH

def inner_mandatory_poses : List Pose :=
  [POSE_HELLO, POSE_STAND_ZERO, POSE_SIT, POSE_SIT_RELAX, POSE_STAND, POSE_WIPE_FOREHEAD]

def all_mandatory_poses : List Pose :=
  [initial_pose] ++ inner_mandatory_poses ++ [final_pose]

def POSE_ROTATION_HANDGUN : Pose :=
  ⟨"rotation_handgun", "1-Rotation_handgun_object", 6204/1000,
    [("standing", true)], [("standing", true)]⟩

def POSE_RIGHT_ARM : Pose :=
  ⟨"right_arm", "2-Right_arm", 17893/1000, [("standing", true)], [("standing", true)]⟩

def POSE_DOUBLE_MOVEMENT : Pose :=
  ⟨"double_movement", "3-Double_movement", 11755/1000, [("standing", true)], [("standing", true)]⟩

def POSE_ARMS_OPENING : Pose :=
  ⟨"arms_opening", "4-Arms_opening", 13927/1000, [("standing", true)], [("standing", true)]⟩

def POSE_UNION_ARMS : Pose :=
  ⟨"union_arms", "5-Union_arms", 10183/1000, [("standing", true)], [("standing", true)]⟩

def POSE_MOVE_FORWARD : Pose :=
  ⟨"move_forward", "7-Move_forward", 7556/1000, [("standing", true)], [("standing", true)]⟩

def POSE_MOVE_BACKWARD : Pose :=
  ⟨"move_backward", "8-Move_backward", 5092/1000, [("standing", true)], [("standing", true)]⟩

def POSE_DIAGONAL_LEFT : Pose :=
  ⟨"diagonal_left", "9-Diagonal_left", 5396/1000, [("standing", true)], [("standing", true)]⟩

def POSE_DIAGONAL_RIGHT : Pose :=
  ⟨"diagonal_right", "10-Diagonal_right", 5389/1000, [("standing", true)], [("standing", true)]⟩

def POSE_ROTATION_FOOT_L : Pose :=
  ⟨"rotation_foot_left", "13-Rotation_foot_LLeg", 13665/1000,
    [("standing", true)], [("standing", true)]⟩

def POSE_ROTATION_FOOT_R : Pose :=
  ⟨"rotation_foot_right", "12-Rotation_foot_RLeg", 11506/1000,
    [("standing", true)], [("standing", true)]⟩

def core_intermediate_poses : List Pose :=
  [POSE_ROTATION_HANDGUN, POSE_RIGHT_ARM, POSE_DOUBLE_MOVEMENT, POSE_ARMS_OPENING,
   POSE_UNION_ARMS, POSE_MOVE_FORWARD, POSE_MOVE_BACKWARD, POSE_DIAGONAL_LEFT,
   POSE_DIAGONAL_RIGHT, POSE_ROTATION_FOOT_L, POSE_ROTATION_FOOT_R]

/-- In the source `crg_like_intermediate_poses()` returns the empty list
(every entry is commented out). -/
def crg_like_intermediate_poses : List Pose := []

/-- In the source `ornamental_intermediate_poses()` returns the empty list
(every entry is commented out). -/
def ornamental_intermediate_poses : List Pose := []

def all_intermediate_poses : List Pose :=
  core_intermediate_poses ++ crg_like_intermediate_poses ++ ornamental_intermediate_poses

def all_known_poses : List Pose := all_mandatory_poses ++ all_intermediate_poses

def total_duration (sequence : List Pose) : ℚ :=
  (sequence.map (fun p => p.duration)).sum

/-! ## Logical state (`Dict[str, bool]`) -/

/-- A logical robot state: a Python dict from state keys to booleans. -/
abbrev St := List (String × Bool)

/-- Python `state[k]` / `k in state`: first-occurrence association lookup. -/
def lookupSt (s : St) (k : String) : Option Bool :=
  (s.find? (fun kv => decide (kv.1 = k))).map (fun kv => kv.2)

/-- Python `d[k] = v` on a dict: replace in place if the key exists, else append. -/
def dictInsert (s : St) (k : String) (v : Bool) : St :=
  if s.any (fun kv => decide (kv.1 = k)) then
    s.map (fun kv => if kv.1 = k then (k, v) else kv)
  else s ++ [(k, v)]

/-- Python `apply_pose`: copy the state and apply every `post` binding. -/
def apply_pose (s : St) (p : Pose) : St :=
  p.post.foldl (fun acc kv => dictInsert acc kv.1 kv.2) s

/-- Python `state_satisfies`: every requirement key present in the state must carry
the required value; absent keys are unconstrained. -/
def state_satisfies (s : St) (req : List (String × Bool)) : Bool :=
  req.all (fun kv =>
    match lookupSt s kv.1 with
    | some w => decide (w = kv.2)
    | none => true)

/-! ## choreography_structure.py -/

def DEFAULT_TOTAL_TIME_SECONDS : ℚ := 117

def ABSOLUTE_MAX_SECONDS : ℚ := 117

/-- Python `next(p for p in inner_mandatory_poses() if p.label == lbl)`; the default
is never used because every label below resolves in the fixed catalog. -/
def findByLabel (lbl : String) : Pose :=
  (inner_mandatory_poses.find? (fun p => decide (p.label = lbl))).getD POSE_STAND_INIT

def mandatory_order : List Pose :=
  [initial_pose,
   findByLabel "hello",
   findByLabel "stand_zero",
   findByLabel "sit",
   findByLabel "sit_relax",
   findByLabel "stand",
   findByLabel "wipe_forehead",
   final_pose]

def compute_uniform_segment_times (total_time : ℚ) : List ℚ :=
  let mand := mandatory_order
  let num_segments := mand.length - 1
  let mandatory_time := total_duration mand
  let remaining := total_time - mandatory_time
  if remaining ≤ 0 then List.replicate num_segments 0
  else List.replicate num_segments (remaining / (num_segments : ℚ))

/-! ## planner.py : required intermediates -/

def REQUIRED_INTERMEDIATE_FILE_IDS : List String :=
  ["1-Rotation_handgun_object", "9-Diagonal_left", "10-Diagonal_right",
   "7-Move_forward", "8-Move_backward"]

/-- Resolve the five required intermediates by `file_id`; an unknown id is
skipped (the source only prints a warning for it). -/
def required_intermediate_poses : List Pose :=
  REQUIRED_INTERMEDIATE_FILE_IDS.filterMap
    (fun fid => all_intermediate_poses.find? (fun p => decide (p.file_id = fid)))

def required_poses_for_time_check : List Pose :=
  mandatory_order ++ required_intermediate_poses

/-! ## planner.py : segment planner (BFS) -/

def MAX_INTERMEDIATES_PER_SEGMENT : ℕ := 6

def EPS : ℚ := 1/1000000

inductive Mode where
  | min : Mode
  | max : Mode
deriving DecidableEq

/-- A BFS queue entry `(state, t_used, path)`. -/
structure Node where
  state : St
  time : ℚ
  path : List Pose
deriving DecidableEq

/-- Python `round(t, 2)` (no value in this development is a half-way case). -/
def pyRound2 (q : ℚ) : ℚ := ((round (q * 100) : ℤ) : ℚ) / 100

/-- Equality of Python `frozenset(state.items())` values: set equality of the
item pairs. -/
def stSetEq (s t : St) : Bool :=
  s.all (fun kv => decide (kv ∈ t)) && t.all (fun kv => decide (kv ∈ s))

/-- The visited-set key `(frozenset(state.items()), round(t_used, 2), len(path))`. -/
abbrev VisKey := St × ℚ × ℕ

/-- Equality of two visited-set keys (conjunct order is irrelevant to the value). -/
def visKeyEq (a b : VisKey) : Bool :=
  decide (a.2.2 = b.2.2) && stSetEq a.1 b.1 && decide (a.2.1 = b.2.1)

def nodeKey (n : Node) : VisKey := (n.state, pyRound2 n.time, n.path.length)

/-- One BFS expansion: every pool pose whose preconditions hold and whose
duration fits the remaining budget, in pool order. -/
def expandNode (pool : List Pose) (budget : ℚ) (n : Node) : List Node :=
  pool.filterMap (fun pose =>
    if state_satisfies n.state pose.pre = true then
      if n.time + pose.duration > budget + EPS then none
      else some ⟨apply_pose n.state pose, n.time + pose.duration, n.path ++ [pose]⟩
    else none)

/-- The `while q:` loop of `_plan_segment_internal`, with explicit fuel.
`some r` means the loop finished with result `r`; `none` means the fuel ran
out (provably unreachable for the fuel used below, see `bfs_fuel_sufficient`). -/
def bfsAux (mode : Mode) (pool : List Pose) (end_pose : Pose) (budget : ℚ) :
    ℕ → List Node → List VisKey → Option (List Pose) → ℚ → Option (Option (List Pose))
  | _, [], _, best, _ =>
      some (match mode with
            | Mode.min => none
            | Mode.max => best)
  | 0, _ :: _, _, _, _ => none
  | fuel + 1, n :: rest, visited, best, best_time =>
      let hit := state_satisfies n.state end_pose.pre
      if mode = Mode.min ∧ hit = true then some (some n.path)
      else
        let best' := if hit = true ∧ n.time > best_time then some n.path else best
        let best_time' := if hit = true ∧ n.time > best_time then n.time else best_time
        if MAX_INTERMEDIATES_PER_SEGMENT ≤ n.path.length then
          bfsAux mode pool end_pose budget fuel rest visited best' best_time'
        else if visited.any (visKeyEq (nodeKey n)) = true then
          bfsAux mode pool end_pose budget fuel rest visited best' best_time'
        else
          bfsAux mode pool end_pose budget fuel (rest ++ expandNode pool budget n)
            (nodeKey n :: visited) best' best_time'

/-- Fuel measure: a node of path length `L` can generate at most
`(|pool|+1)^(7 - L) - 1` further queue entries. -/
def nodeWeight (P : ℕ) (n : Node) : ℕ := (P + 1) ^ (7 - min n.path.length 7)

def queueWeight (P : ℕ) (q : List Node) : ℕ := (q.map (nodeWeight P)).sum

def plan_segment_internal (start_state : St) (end_pose : Pose)
    (intermediates_pool : List Pose) (time_budget_for_segment : ℚ) (mode : Mode) :
    Option (List Pose) :=
  if mode = Mode.min ∧ state_satisfies start_state end_pose.pre = true then some []
  else
    match bfsAux mode intermediates_pool end_pose time_budget_for_segment
        ((intermediates_pool.length + 1) ^ 7)
        [⟨start_state, 0, []⟩] [] none (-1) with
    | some r => r
    | none => none

def plan_segment_min (start_state : St) (end_pose : Pose) (intermediates_pool : List Pose)
    (time_budget_for_segment : ℚ) : Option (List Pose) :=
  plan_segment_internal start_state end_pose intermediates_pool time_budget_for_segment Mode.min

def plan_segment_max (start_state : St) (end_pose : Pose) (intermediates_pool : List Pose)
    (time_budget_for_segment : ℚ) : Option (List Pose) :=
  plan_segment_internal start_state end_pose intermediates_pool time_budget_for_segment Mode.max

/-! ## planner.py : full choreography planner -/

/-- The `for idx in range(num_segments)` loop of `_plan_full_choreography_generic`:
walk the remaining mandatory poses, planning one segment per step. -/
def segLoop (mode : Mode) (pool : List Pose) (targets_raw : List ℚ)
    (interm_budget_total : ℚ) :
    List Pose → ℕ → List Pose → St → ℚ → Option (List Pose × St)
  | [], _, seqAcc, st, _ => some (seqAcc, st)
  | end_pose :: restMand, idx, seqAcc, st, used =>
      let remaining_budget := interm_budget_total - used
      if remaining_budget < -EPS then none
      else
        let soft_target_raw := (targets_raw.get? idx).getD remaining_budget
        let segment_budget :=
          min (if soft_target_raw > 0 then soft_target_raw else remaining_budget)
            remaining_budget
        if segment_budget ≤ EPS then
          if state_satisfies st end_pose.pre = false then none
          else
            segLoop mode pool targets_raw interm_budget_total restMand (idx + 1)
              (seqAcc ++ [end_pose]) (apply_pose st end_pose) used
        else
          let seg_interms :=
            match mode with
            | Mode.min =>
                match plan_segment_min st end_pose pool segment_budget with
                | some r => some r
                | none =>
                    if remaining_budget > segment_budget + EPS then
                      plan_segment_min st end_pose pool remaining_budget
                    else none
            | Mode.max => plan_segment_max st end_pose pool remaining_budget
          match seg_interms with
          | none => none
          | some interms =>
              segLoop mode pool targets_raw interm_budget_total restMand (idx + 1)
                ((seqAcc ++ interms) ++ [end_pose])
                (apply_pose (interms.foldl apply_pose st) end_pose)
                (used + total_duration interms)

/-- The body of `_plan_full_choreography_generic` minus the speed-factor guard (which
raises and is modelled in the `Except` wrappers below). -/
def plan_full_choreography_generic_core (song_length_seconds : Option ℚ) (mode : Mode)
    (speed_factor : ℚ) : Option (List Pose) :=
  let desired_total := song_length_seconds.getD DEFAULT_TOTAL_TIME_SECONDS
  let hard_cap_effective := min desired_total ABSOLUTE_MAX_SECONDS
  let hard_cap_raw := hard_cap_effective * speed_factor
  let required_time_raw := total_duration required_poses_for_time_check
  if required_time_raw > hard_cap_raw + EPS then none
  else
    let mand_time_raw := total_duration mandatory_order
    if mand_time_raw > hard_cap_raw + EPS then none
    else
      let interm_budget_total := hard_cap_raw - mand_time_raw
      let segment_targets_raw :=
        (compute_uniform_segment_times hard_cap_effective).map (fun t => t * speed_factor)
      match mandatory_order with
      | [] => none
      | first :: mandTail =>
          match segLoop mode all_intermediate_poses segment_targets_raw interm_budget_total
              mandTail 0 [first] (apply_pose [] first) 0 with
          | none => none
          | some res =>
              if total_duration res.1 > hard_cap_raw + EPS then none
              else some res.1

def plan_full_choreography_generic (song_length_seconds : Option ℚ) (mode : Mode)
    (speed_factor : ℚ) : Except String (Option (List Pose)) :=
  if speed_factor ≤ 0 then Except.error "speed_factor must be positive"
  else Except.ok (plan_full_choreography_generic_core song_length_seconds mode speed_factor)

/-- Index of the last occurrence of `fid` in `seq` (`last_idx` scan), with the
source's fallback `len(seq)` when it does not occur. -/
def lastIdxOf (fid : String) (seq : List Pose) : ℕ :=
  match ((seq.enum.filter (fun ip => decide (ip.2.file_id = fid))).map
      (fun ip => ip.1)).getLast? with
  | some i => i
  | none => seq.length

/-- The body of `plan_full_choreography` minus the speed-factor guard: run the generic
minimal planner, then splice any missing required intermediates in just
before the final mandatory pose, provided the cap allows it. -/
def plan_full_choreography_core (song_length_seconds : Option ℚ) (speed_factor : ℚ) :
    Option (List Pose) :=
  match plan_full_choreography_generic_core song_length_seconds Mode.min speed_factor with
  | none => none
  | some seq =>
      let present_ids := seq.map (fun p => p.file_id)
      let req_ids_in_order := required_intermediate_poses.map (fun p => p.file_id)
      let missing_ids := req_ids_in_order.filter (fun fid => decide (¬ fid ∈ present_ids))
      if missing_ids = [] then some seq
      else
        let missing_poses := missing_ids.filterMap
          (fun fid => all_intermediate_poses.find? (fun p => decide (p.file_id = fid)))
        if missing_poses = [] then some seq
        else
          let desired_total := song_length_seconds.getD DEFAULT_TOTAL_TIME_SECONDS
          let hard_cap_effective := min desired_total ABSOLUTE_MAX_SECONDS
          let hard_cap_raw := hard_cap_effective * speed_factor
          let extra_raw := total_duration missing_poses
          let current_raw := total_duration seq
          if current_raw + extra_raw > hard_cap_raw + EPS then some seq
          else
            let last_idx := lastIdxOf (mandatory_order.getLastD POSE_STAND_INIT).file_id seq
            some (seq.take last_idx ++ missing_poses ++ seq.drop last_idx)

def plan_full_choreography (song_length_seconds : Option ℚ) (speed_factor : ℚ) :
    Except String (Option (List Pose)) :=
  if speed_factor ≤ 0 then Except.error "speed_factor must be positive"
  else Except.ok (plan_full_choreography_core song_length_seconds speed_factor)

def plan_full_choreography_maximal (song_length_seconds : Option ℚ) (speed_factor : ℚ) :
    Except String (Option (List Pose)) :=
  if speed_factor ≤ 0 then Except.error "speed_factor must be positive"
  else Except.ok (plan_full_choreography_generic_core song_length_seconds Mode.max speed_factor)

/-! ## play_sequence.py : duration-matching selector -/

def MAX_TIME_LIMIT : ℚ := 117

/-- The selector's window probe: call the maximal planner with the capped
window upper bound and accept the candidate only if its effective duration
falls in the window (the call site always passes a positive speed factor, so
the planner's raise-guard is transparent here and the core is used directly). -/
def find_first_path_in_range (min_dur max_dur cap_hint speed_factor : ℚ) :
    Option (List Pose) :=
  if cap_hint ≤ 0 then none
  else
    let cap := min cap_hint MAX_TIME_LIMIT
    match plan_full_choreography_generic_core (some cap) Mode.max speed_factor with
    | none => none
    | some seq =>
        let t_eff := total_duration seq / speed_factor
        if min_dur ≤ t_eff ∧ t_eff ≤ max_dur + EPS then some seq else none

def find_best_path_for_duration (duration_amount speed_factor : ℚ) : Option (List Pose) :=
  let S := duration_amount
  match find_first_path_in_range (9/10 * S) (1 * S) (1 * S) speed_factor with
  | some close_candidate => some close_candidate
  | none =>
      match find_first_path_in_range (7/10 * S) (9/10 * S) (9/10 * S) speed_factor with
      | some mid_candidate => some mid_candidate
      | none =>
          match find_first_path_in_range (5/10 * S) (7/10 * S) (7/10 * S) speed_factor with
          | some far_candidate => some far_candidate
          | none => find_first_path_in_range (0 * S) (5/10 * S) (5/10 * S) speed_factor

/-! ## Derived semantic notions used by the specification claims -/

/-- Fold the `post` mappings of a pose sequence over a start state. -/
def foldPoses (st : St) (l : List Pose) : St := l.foldl apply_pose st

/-- Stepwise executability: each pose's preconditions hold in the running state. -/
def chainFrom (st : St) : List Pose → Bool
  | [] => true
  | p :: rest => state_satisfies st p.pre && chainFrom (apply_pose st p) rest

/-- Every adjacent pair `(p[i], p[i+1])`: the state folded from the empty state
through `p[0..i]` satisfies `p[i+1].pre`. -/
def adjacentOK : List Pose → Bool
  | [] => true
  | p :: rest => chainFrom (apply_pose [] p) rest

/-- The guarantees an intermediate path returned by the segment planner gives:
stepwise executability, reaching the end pose's preconditions, the pose-count
ceiling, and (when non-empty) the budget bound. -/
def SoundPath (start : St) (end_pose : Pose) (budget : ℚ) (path : List Pose) : Prop :=
  chainFrom start path = true ∧
  state_satisfies (foldPoses start path) end_pose.pre = true ∧
  path.length ≤ MAX_INTERMEDIATES_PER_SEGMENT ∧
  (path ≠ [] → total_duration path ≤ budget + EPS)

/-- Invariant of every node that ever enters the BFS queue. -/
def NodeOK (start : St) (budget : ℚ) (n : Node) : Prop :=
  n.state = foldPoses start n.path ∧
  n.time = total_duration n.path ∧
  chainFrom start n.path = true ∧
  n.path.length ≤ MAX_INTERMEDIATES_PER_SEGMENT ∧
  (n.path ≠ [] → n.time ≤ budget + EPS)

/-- The sequence `plan_full_choreography` produces whenever it succeeds:
the mandatory backbone with the five required intermediates spliced in just
before the final `Crouch`. -/
def enforced_min_sequence : List Pose :=
  [POSE_STAND_INIT, POSE_HELLO, POSE_STAND_ZERO, POSE_SIT, POSE_SIT_RELAX, POSE_STAND,
   POSE_WIPE_FOREHEAD, POSE_ROTATION_HANDGUN, POSE_DIAGONAL_LEFT, POSE_DIAGONAL_RIGHT,
   POSE_MOVE_FORWARD, POSE_MOVE_BACKWARD, POSE_CROUCH]

/-! ## A concrete pool on which minimal-mode search is not shortest-by-count

Pool order matters: `csP1` (duration 0.504) is enqueued before `csP2`
(duration 0.498); both lead to the same state with path length 1 and the same
2-decimal-rounded time 0.50, so the `csP2` node is pruned by the visited set,
although only its exact time admits the 2-pose completion `[csP2, csG]`
within the budget. The search then returns the 3-pose `[csT1, csT2, csG]`. -/

def csP1 : Pose := ⟨"p1", "P1", 504/1000, [("p", false), ("q", false)], [("p", true)]⟩

def csP2 : Pose := ⟨"p2", "P2", 498/1000, [("p", false), ("q", false)], [("p", true)]⟩

def csG : Pose := ⟨"g", "G", 5/10, [("p", true)], [("g", true)]⟩

def csT1 : Pose := ⟨"t1", "T1", 1/10, [("q", false), ("p", false)], [("q", true)]⟩

def csT2 : Pose := ⟨"t2", "T2", 1/10, [("q", true), ("p", false)], [("p", true)]⟩

def csPool : List Pose := [csP1, csP2, csG, csT1, csT2]

def csS0 : St := [("g", false), ("p", false), ("q", false)]

def csSp : St := [("g", false), ("p", true), ("q", false)]

def csSq : St := [("g", false), ("p", false), ("q", true)]

def csSpq : St := [("g", false), ("p", true), ("q", true)]

def csEnd : Pose := ⟨"end_pose", "END", 1, [("g", true)], []⟩

/-! ## Helper lemmas: durations, folding, chains -/

theorem total_duration_append (a b : List Pose) :
    total_duration (a ++ b) = total_duration a + total_duration b := by
  simp [total_duration]

theorem foldPoses_nil (st : St) : foldPoses st [] = st := rfl

theorem foldPoses_cons (st : St) (p : Pose) (l : List Pose) :
    foldPoses st (p :: l) = foldPoses (apply_pose st p) l := rfl

theorem foldPoses_append (st : St) (a b : List Pose) :
    foldPoses st (a ++ b) = foldPoses (foldPoses st a) b := by
  simp [foldPoses, List.foldl_append]

theorem chainFrom_append (st : St) (a b : List Pose) :
    chainFrom st (a ++ b) = (chainFrom st a && chainFrom (foldPoses st a) b) := by
  induction a generalizing st with
  | nil => simp [chainFrom, foldPoses]
  | cons p rest ih =>
      simp [chainFrom, foldPoses_cons, ih (apply_pose st p), Bool.and_assoc]

theorem state_satisfies_nil (req : List (String × Bool)) :
    state_satisfies [] req = true := by
  simp [state_satisfies, lookupSt, List.all_eq_true]

theorem adjacentOK_of_chainFrom {l : List Pose} (h : chainFrom [] l = true) :
    adjacentOK l = true := by
  cases l with
  | nil => rfl
  | cons p rest =>
      simp only [chainFrom, Bool.and_eq_true] at h
      exact h.2

/-! ## Segment-planner soundness -/

theorem mem_expandNode {pool : List Pose} {budget : ℚ} {n c : Node}
    (h : c ∈ expandNode pool budget n) :
    ∃ pose, pose ∈ pool ∧ state_satisfies n.state pose.pre = true ∧
      n.time + pose.duration ≤ budget + EPS ∧
      c = ⟨apply_pose n.state pose, n.time + pose.duration, n.path ++ [pose]⟩ := by
  rcases List.mem_filterMap.mp h with ⟨pose, hmem, hf⟩
  by_cases h1 : state_satisfies n.state pose.pre = true
  · rw [if_pos h1] at hf
    by_cases h2 : n.time + pose.duration > budget + EPS
    · rw [if_pos h2] at hf
      exact Option.noConfusion hf
    · rw [if_neg h2] at hf
      exact ⟨pose, hmem, h1, le_of_not_lt h2, (Option.some_inj.mp hf).symm⟩
  · rw [if_neg h1] at hf
    exact Option.noConfusion hf

theorem nodeOK_expand {start : St} {budget : ℚ} {pool : List Pose} {n c : Node}
    (hn : NodeOK start budget n) (hlen : n.path.length < MAX_INTERMEDIATES_PER_SEGMENT)
    (hc : c ∈ expandNode pool budget n) : NodeOK start budget c := by
  rcases mem_expandNode hc with ⟨pose, _, hsat, hbud, rfl⟩
  rcases hn with ⟨hst, htime, hchain, _, _⟩
  refine ⟨?_, ?_, ?_, ?_, ?_⟩
  · show apply_pose n.state pose = foldPoses start (n.path ++ [pose])
    rw [foldPoses_append, hst]
    rfl
  · show n.time + pose.duration = total_duration (n.path ++ [pose])
    rw [total_duration_append, htime]
    simp [total_duration]
  · show chainFrom start (n.path ++ [pose]) = true
    rw [chainFrom_append]
    simp only [Bool.and_eq_true]
    refine ⟨hchain, ?_⟩
    simp only [chainFrom, Bool.and_true]
    rw [← hst]
    exact hsat
  · show (n.path ++ [pose]).length ≤ MAX_INTERMEDIATES_PER_SEGMENT
    simp only [List.length_append, List.length_singleton]
    omega
  · intro _
    exact hbud

theorem bfsAux_sound (mode : Mode) (pool : List Pose) (end_pose : Pose) (budget : ℚ)
    (start : St) :
    ∀ fuel q visited best best_time,
      (∀ n ∈ q, NodeOK start budget n) →
      (∀ p, best = some p → SoundPath start end_pose budget p) →
      ∀ path,
        bfsAux mode pool end_pose budget fuel q visited best best_time = some (some path) →
        SoundPath start end_pose budget path := by
  intro fuel
  induction fuel with
  | zero =>
      intro q visited best best_time hq hb path hres
      cases q with
      | nil =>
          cases mode with
          | min => simp [bfsAux] at hres
          | max =>
              simp only [bfsAux] at hres
              exact hb path (Option.some_inj.mp hres)
      | cons n rest => simp [bfsAux] at hres
  | succ f ih =>
      intro q visited best best_time hq hb path hres
      cases q with
      | nil =>
          cases mode with
          | min => simp [bfsAux] at hres
          | max =>
              simp only [bfsAux] at hres
              exact hb path (Option.some_inj.mp hres)
      | cons n rest =>
          have hn : NodeOK start budget n := hq n (List.mem_cons_self n rest)
          have hrest : ∀ m ∈ rest, NodeOK start budget m :=
            fun m hm => hq m (List.mem_cons_of_mem n hm)
          simp only [bfsAux] at hres
          by_cases hgoal : mode = Mode.min ∧ state_satisfies n.state end_pose.pre = true
          · rw [if_pos hgoal] at hres
            have hpath : n.path = path := Option.some_inj.mp (Option.some_inj.mp hres)
            rcases hn with ⟨hst, htime, hchain, hlen, hbud⟩
            subst hpath
            exact ⟨hchain, by rw [← hst]; exact hgoal.2, hlen, fun hne => htime ▸ hbud hne⟩
          · rw [if_neg hgoal] at hres
            set best' := if state_satisfies n.state end_pose.pre = true ∧ n.time > best_time
              then some n.path else best with hbest'
            have hb' : ∀ p, best' = some p → SoundPath start end_pose budget p := by
              intro p hp
              rw [hbest'] at hp
              by_cases hcond : state_satisfies n.state end_pose.pre = true ∧ n.time > best_time
              · rw [if_pos hcond] at hp
                have : n.path = p := Option.some_inj.mp hp
                subst this
                rcases hn with ⟨hst, htime, hchain, hlen, hbud⟩
                exact ⟨hchain, by rw [← hst]; exact hcond.1, hlen,
                  fun hne => htime ▸ hbud hne⟩
              · rw [if_neg hcond] at hp
                exact hb p hp
            by_cases hmax : MAX_INTERMEDIATES_PER_SEGMENT ≤ n.path.length
            · rw [if_pos hmax] at hres
              exact ih rest visited best' _ hrest hb' path hres
            · rw [if_neg hmax] at hres
              by_cases hvis : (visited.any (visKeyEq (nodeKey n))) = true
              · rw [if_pos hvis] at hres
                exact ih rest visited best' _ hrest hb' path hres
              · rw [if_neg hvis] at hres
                refine ih _ _ best' _ ?_ hb' path hres
                intro m hm
                rcases List.mem_append.mp hm with hm1 | hm2
                · exact hrest m hm1
                · exact nodeOK_expand hn (lt_of_not_le hmax) hm2

/-- Soundness of the segment planner, both modes: any returned path is
stepwise executable, reaches the end pose's preconditions, respects the
pose-count ceiling, and (when non-empty) the budget. -/
theorem plan_segment_internal_sound {start : St} {end_pose : Pose} {pool : List Pose}
    {budget : ℚ} {mode : Mode} {path : List Pose}
    (h : plan_segment_internal start end_pose pool budget mode = some path) :
    SoundPath start end_pose budget path := by
  unfold plan_segment_internal at h
  by_cases h0 : mode = Mode.min ∧ state_satisfies start end_pose.pre = true
  · rw [if_pos h0] at h
    have : ([] : List Pose) = path := Option.some_inj.mp h
    subst this
    exact ⟨rfl, h0.2, by simp [MAX_INTERMEDIATES_PER_SEGMENT], fun hne => absurd rfl hne⟩
  · rw [if_neg h0] at h
    rcases hres : bfsAux mode pool end_pose budget ((pool.length + 1) ^ 7)
        [⟨start, 0, []⟩] [] none (-1) with _ | r
    · rw [hres] at h
      exact Option.noConfusion h
    · rw [hres] at h
      have hr : r = some path := h
      subst hr
      refine bfsAux_sound mode pool end_pose budget start _ _ _ _ _ ?_ ?_ path hres
      · intro n hn
        have : n = (⟨start, 0, []⟩ : Node) := by
          rcases List.mem_singleton.mp hn with rfl
          rfl
        subst this
        exact ⟨rfl, by simp [total_duration], rfl, by simp [MAX_INTERMEDIATES_PER_SEGMENT],
          fun hne => absurd rfl hne⟩
      · intro p hp
        exact Option.noConfusion hp

/-! ## Segment-planner termination: the fuel bound always suffices -/

theorem nodeWeight_pos (P : ℕ) (n : Node) : 0 < nodeWeight P n :=
  Nat.pow_pos (Nat.succ_pos P)

theorem queueWeight_cons (P : ℕ) (n : Node) (q : List Node) :
    queueWeight P (n :: q) = nodeWeight P n + queueWeight P q := by
  simp [queueWeight]

theorem queueWeight_append (P : ℕ) (a b : List Node) :
    queueWeight P (a ++ b) = queueWeight P a + queueWeight P b := by
  simp [queueWeight]

theorem queueWeight_expand_lt (pool : List Pose) (budget : ℚ) (n : Node)
    (hlen : n.path.length < MAX_INTERMEDIATES_PER_SEGMENT) :
    queueWeight pool.length (expandNode pool budget n) < nodeWeight pool.length n := by
  have hL : n.path.length < 6 := hlen
  have hw : ∀ m ∈ (expandNode pool budget n).map (nodeWeight pool.length),
      m ≤ (pool.length + 1) ^ (6 - n.path.length) := by
    intro m hm
    rcases List.mem_map.mp hm with ⟨c, hc, rfl⟩
    rcases mem_expandNode hc with ⟨pose, _, _, _, rfl⟩
    show (pool.length + 1) ^ (7 - min (n.path ++ [pose]).length 7) ≤
      (pool.length + 1) ^ (6 - n.path.length)
    have h1 : (n.path ++ [pose]).length = n.path.length + 1 := by simp
    rw [h1]
    have h2 : 7 - min (n.path.length + 1) 7 = 6 - n.path.length := by omega
    rw [h2]
  have hsum : queueWeight pool.length (expandNode pool budget n) ≤
      (expandNode pool budget n).length * (pool.length + 1) ^ (6 - n.path.length) := by
    have := List.sum_le_card_nsmul ((expandNode pool budget n).map (nodeWeight pool.length))
      ((pool.length + 1) ^ (6 - n.path.length)) hw
    simpa [queueWeight, smul_eq_mul] using this
  have hcount : (expandNode pool budget n).length ≤ pool.length :=
    List.length_filterMap_le _ _
  have hstep : (expandNode pool budget n).length * (pool.length + 1) ^ (6 - n.path.length) <
      (pool.length + 1) * (pool.length + 1) ^ (6 - n.path.length) :=
    Nat.mul_lt_mul_of_lt_of_le (Nat.lt_succ_of_le hcount) (le_refl _)
      (Nat.pow_pos (Nat.succ_pos _))
  have hnw : nodeWeight pool.length n =
      (pool.length + 1) * (pool.length + 1) ^ (6 - n.path.length) := by
    show (pool.length + 1) ^ (7 - min n.path.length 7) = _
    have h3 : 7 - min n.path.length 7 = (6 - n.path.length) + 1 := by omega
    rw [h3, pow_succ]
    ring
  omega

theorem bfs_fuel_sufficient_aux (mode : Mode) (pool : List Pose) (end_pose : Pose)
    (budget : ℚ) :
    ∀ fuel q visited best best_time, queueWeight pool.length q ≤ fuel →
      (bfsAux mode pool end_pose budget fuel q visited best best_time).isSome = true := by
  intro fuel
  induction fuel with
  | zero =>
      intro q visited best best_time hw
      cases q with
      | nil => cases mode <;> simp [bfsAux]
      | cons n rest =>
          exfalso
          have h1 := nodeWeight_pos pool.length n
          rw [queueWeight_cons] at hw
          omega
  | succ f ih =>
      intro q visited best best_time hw
      cases q with
      | nil => cases mode <;> simp [bfsAux]
      | cons n rest =>
          rw [queueWeight_cons] at hw
          have h1 := nodeWeight_pos pool.length n
          simp only [bfsAux]
          by_cases hgoal : mode = Mode.min ∧ state_satisfies n.state end_pose.pre = true
          · rw [if_pos hgoal]
            rfl
          · rw [if_neg hgoal]
            by_cases hmax : MAX_INTERMEDIATES_PER_SEGMENT ≤ n.path.length
            · rw [if_pos hmax]
              exact ih rest visited _ _ (by omega)
            · rw [if_neg hmax]
              by_cases hvis : (visited.any (visKeyEq (nodeKey n))) = true
              · rw [if_pos hvis]
                exact ih rest visited _ _ (by omega)
              · rw [if_neg hvis]
                refine ih _ _ _ _ ?_
                rw [queueWeight_append]
                have := queueWeight_expand_lt pool budget n (lt_of_not_le hmax)
                omega

/-! ## Soundness of the full-planner segment loop -/

theorem seg_interms_chains {mode : Mode} {pool : List Pose} {st : St} {e : Pose}
    {b1 b2 : ℚ} {i : List Pose}
    (h : (match mode with
          | Mode.min =>
              match plan_segment_min st e pool b1 with
              | some r => some r
              | none => if b2 > b1 + EPS then plan_segment_min st e pool b2 else none
          | Mode.max => plan_segment_max st e pool b2) = some i) :
    chainFrom st i = true ∧ state_satisfies (foldPoses st i) e.pre = true := by
  cases mode with
  | min =>
      simp only at h
      rcases h1 : plan_segment_min st e pool b1 with _ | r
      · rw [h1] at h
        by_cases h2 : b2 > b1 + EPS
        · rw [if_pos h2] at h
          have := plan_segment_internal_sound h
          exact ⟨this.1, this.2.1⟩
        · rw [if_neg h2] at h
          exact Option.noConfusion h
      · rw [h1] at h
        have hri : r = i := Option.some_inj.mp h
        subst hri
        have := plan_segment_internal_sound h1
        exact ⟨this.1, this.2.1⟩
  | max =>
      simp only at h
      have := plan_segment_internal_sound h
      exact ⟨this.1, this.2.1⟩

theorem segLoop_sound (mode : Mode) (pool : List Pose) (targets : List ℚ) (ibt : ℚ) :
    ∀ mandTail idx seqAcc st used out stOut,
      segLoop mode pool targets ibt mandTail idx seqAcc st used = some (out, stOut) →
      ∃ ext, out = seqAcc ++ ext ∧ stOut = foldPoses st ext ∧ chainFrom st ext = true ∧
        List.Sublist mandTail ext ∧ (mandTail = [] → ext = []) ∧
        (mandTail ≠ [] → ext.getLast? = mandTail.getLast?) := by
  intro mandTail
  induction mandTail with
  | nil =>
      intro idx seqAcc st used out stOut h
      simp only [segLoop] at h
      have h1 : seqAcc = out ∧ st = stOut := by
        have := Option.some_inj.mp h
        exact ⟨congrArg Prod.fst this, congrArg Prod.snd this⟩
      exact ⟨[], by simp [h1.1.symm], h1.2.symm, rfl, List.nil_sublist [], fun _ => rfl,
        fun hne => absurd rfl hne⟩
  | cons e rest ih =>
      intro idx seqAcc st used out stOut h
      simp only [segLoop] at h
      by_cases hrem : ibt - used < -EPS
      · rw [if_pos hrem] at h
        exact Option.noConfusion h
      · rw [if_neg hrem] at h
        by_cases hsmall :
            min (if ((targets.get? idx).getD (ibt - used)) > 0
                 then (targets.get? idx).getD (ibt - used) else ibt - used)
              (ibt - used) ≤ EPS
        · rw [if_pos hsmall] at h
          by_cases hsat : state_satisfies st e.pre = false
          · rw [if_pos hsat] at h
            exact Option.noConfusion h
          · rw [if_neg hsat] at h
            have hsat' : state_satisfies st e.pre = true := by
              cases hb : state_satisfies st e.pre with
              | false => exact absurd hb hsat
              | true => rfl
            rcases ih (idx + 1) (seqAcc ++ [e]) (apply_pose st e) used out stOut h with
              ⟨ext', hout, hst, hchain, hsub, hnil, hlast⟩
            refine ⟨e :: ext', ?_, ?_, ?_, List.Sublist.cons₂ e hsub, ?_, ?_⟩
            · rw [hout, List.append_assoc]
              rfl
            · rw [hst]
              rfl
            · simp only [chainFrom, Bool.and_eq_true]
              exact ⟨hsat', hchain⟩
            · intro hfalse
              exact absurd hfalse (List.cons_ne_nil e rest)
            · intro _
              cases hr : rest with
              | nil =>
                  have : ext' = [] := hnil (by rw [hr])
                  rw [this]
              | cons r rs =>
                  have hrne : rest ≠ [] := by rw [hr]; exact List.cons_ne_nil r rs
                  have hextne : ext' ≠ [] := by
                    intro hx
                    rw [hx] at hsub
                    have := List.sublist_nil.mp hsub
                    exact hrne this
                  rcases List.exists_cons_of_ne_nil hextne with ⟨x, xs, hxs⟩
                  rw [hxs, List.getLast?_cons_cons, ← hxs, hlast hrne, hr,
                    List.getLast?_cons_cons, ← hr]
        · rw [if_neg hsmall] at h
          rcases hseg : (match mode with
              | Mode.min =>
                  match plan_segment_min st e pool
                      (min (if ((targets.get? idx).getD (ibt - used)) > 0
                            then (targets.get? idx).getD (ibt - used) else ibt - used)
                        (ibt - used)) with
                  | some r => some r
                  | none =>
                      if ibt - used >
                          (min (if ((targets.get? idx).getD (ibt - used)) > 0
                                then (targets.get? idx).getD (ibt - used) else ibt - used)
                            (ibt - used)) + EPS then
                        plan_segment_min st e pool (ibt - used)
                      else none
              | Mode.max => plan_segment_max st e pool (ibt - used)) with _ | interms
          · rw [hseg] at h
            exact Option.noConfusion h
          · rw [hseg] at h
            have hchains := seg_interms_chains hseg
            rcases ih (idx + 1) ((seqAcc ++ interms) ++ [e])
                (apply_pose (interms.foldl apply_pose st) e) (used + total_duration interms)
                out stOut h with ⟨ext', hout, hst, hchain, hsub, hnil, hlast⟩
            refine ⟨interms ++ e :: ext', ?_, ?_, ?_, ?_, ?_, ?_⟩
            · rw [hout]
              simp [List.append_assoc]
            · rw [hst, foldPoses_append, foldPoses_cons]
              rfl
            · rw [chainFrom_append]
              simp only [Bool.and_eq_true]
              refine ⟨hchains.1, ?_⟩
              simp only [chainFrom, Bool.and_eq_true]
              exact ⟨hchains.2, hchain⟩
            · exact List.Sublist.trans (List.Sublist.cons₂ e hsub)
                (List.sublist_append_right interms (e :: ext'))
            · intro hfalse
              exact absurd hfalse (List.cons_ne_nil e rest)
            · intro _
              rw [List.getLast?_append_cons]
              cases hr : rest with
              | nil =>
                  have : ext' = [] := hnil (by rw [hr])
                  rw [this]
              | cons r rs =>
                  have hrne : rest ≠ [] := by rw [hr]; exact List.cons_ne_nil r rs
                  have hextne : ext' ≠ [] := by
                    intro hx
                    rw [hx] at hsub
                    have := List.sublist_nil.mp hsub
                    exact hrne this
                  rcases List.exists_cons_of_ne_nil hextne with ⟨x, xs, hxs⟩
                  rw [hxs, List.getLast?_cons_cons, ← hxs, hlast hrne, hr,
                    List.getLast?_cons_cons, ← hr]

/-! ## Concrete catalog evaluations -/

theorem mandatory_order_eq :
    mandatory_order = [POSE_STAND_INIT, POSE_HELLO, POSE_STAND_ZERO, POSE_SIT,
      POSE_SIT_RELAX, POSE_STAND, POSE_WIPE_FOREHEAD, POSE_CROUCH] := rfl

theorem required_intermediate_poses_eq :
    required_intermediate_poses = [POSE_ROTATION_HANDGUN, POSE_DIAGONAL_LEFT,
      POSE_DIAGONAL_RIGHT, POSE_MOVE_FORWARD, POSE_MOVE_BACKWARD] := rfl

theorem td_mandatory : total_duration mandatory_order = 41529/500 := by
  rw [mandatory_order_eq]
  simp only [total_duration, List.map_cons, List.map_nil, List.sum_cons, List.sum_nil,
    POSE_STAND_INIT, POSE_HELLO, POSE_STAND_ZERO, POSE_SIT, POSE_SIT_RELAX, POSE_STAND,
    POSE_WIPE_FOREHEAD, POSE_CROUCH]
  norm_num

theorem td_required : total_duration required_poses_for_time_check = 22539/200 := by
  rw [required_poses_for_time_check, total_duration_append, td_mandatory,
    required_intermediate_poses_eq]
  simp only [total_duration, List.map_cons, List.map_nil, List.sum_cons, List.sum_nil,
    POSE_ROTATION_HANDGUN, POSE_DIAGONAL_LEFT, POSE_DIAGONAL_RIGHT, POSE_MOVE_FORWARD,
    POSE_MOVE_BACKWARD]
  norm_num

/-! ## Cap bound and structural soundness of the generic planner -/

theorem generic_core_cap {song : Option ℚ} {mode : Mode} {sf : ℚ} {seq : List Pose}
    (h : plan_full_choreography_generic_core song mode sf = some seq) :
    total_duration seq ≤
      min (song.getD DEFAULT_TOTAL_TIME_SECONDS) ABSOLUTE_MAX_SECONDS * sf + EPS := by
  simp only [plan_full_choreography_generic_core] at h
  split at h
  · exact Option.noConfusion h
  · split at h
    · exact Option.noConfusion h
    · split at h
      · exact Option.noConfusion h
      · split at h
        · exact Option.noConfusion h
        · split at h
          · exact Option.noConfusion h
          · rename_i hfinal
            have hfs := Option.some_inj.mp h
            subst hfs
            exact le_of_not_lt hfinal

/-- Structural soundness of the generic planner (both modes): the result is
the first mandatory pose followed by a tail that is stepwise executable,
contains the remaining mandatory poses in order, and ends with the final pose. -/
theorem generic_core_structure {song : Option ℚ} {mode : Mode} {sf : ℚ} {seq : List Pose}
    (h : plan_full_choreography_generic_core song mode sf = some seq) :
    ∃ ext, seq = POSE_STAND_INIT :: ext ∧
      chainFrom (apply_pose [] POSE_STAND_INIT) ext = true ∧
      List.Sublist [POSE_HELLO, POSE_STAND_ZERO, POSE_SIT, POSE_SIT_RELAX, POSE_STAND,
        POSE_WIPE_FOREHEAD, POSE_CROUCH] ext ∧
      ext.getLast? = some POSE_CROUCH := by
  simp only [plan_full_choreography_generic_core] at h
  split at h
  · exact Option.noConfusion h
  · split at h
    · exact Option.noConfusion h
    · split at h
      · rename_i hmand
        exact absurd (mandatory_order_eq.symm.trans hmand) (by simp)
      · rename_i first mandTail hmand
        split at h
        · exact Option.noConfusion h
        · rename_i res hseg
          split at h
          · exact Option.noConfusion h
          · have hfs := Option.some_inj.mp h
            subst hfs
            have hlist := mandatory_order_eq.symm.trans hmand
            injection hlist with h1 h2
            subst h1
            subst h2
            rcases segLoop_sound mode all_intermediate_poses _ _ _ _ _ _ _ _ _
              ((Prod.mk.eta (p := res)).symm ▸ hseg) with
              ⟨ext, hout, _, hchain, hsub, _, hlast⟩
            refine ⟨ext, by simpa using hout, hchain, hsub, ?_⟩
            rw [hlast (by simp)]
            rfl

/-! ## Exact characterisation of the minimal-mode planner -/

theorem segLoop_min_step (pool : List Pose) (targets : List ℚ) (ibt : ℚ) (e : Pose)
    (rest : List Pose) (idx : ℕ) (seqAcc : List Pose) (st : St) (used : ℚ)
    (hsat : state_satisfies st e.pre = true) (hrem : ¬ ibt - used < -EPS) :
    segLoop Mode.min pool targets ibt (e :: rest) idx seqAcc st used =
      segLoop Mode.min pool targets ibt rest (idx + 1) (seqAcc ++ [e]) (apply_pose st e)
        used := by
  have hps : ∀ b, plan_segment_min st e pool b = some [] := by
    intro b
    unfold plan_segment_min plan_segment_internal
    rw [if_pos ⟨rfl, hsat⟩]
  simp only [segLoop]
  rw [if_neg hrem]
  have hsatF : (state_satisfies st e.pre = false) = False := by simp [hsat]
  simp only [hps, hsatF, if_false, List.append_nil, List.foldl_nil, total_duration,
    List.map_nil, List.sum_nil, add_zero, ite_self]

theorem plan_generic_min_eq (song : Option ℚ) (sf : ℚ) :
    plan_full_choreography_generic_core song Mode.min sf =
      if total_duration required_poses_for_time_check ≤
          min (song.getD DEFAULT_TOTAL_TIME_SECONDS) ABSOLUTE_MAX_SECONDS * sf + EPS
      then some mandatory_order else none := by
  by_cases hfeas : total_duration required_poses_for_time_check ≤
      min (song.getD DEFAULT_TOTAL_TIME_SECONDS) ABSOLUTE_MAX_SECONDS * sf + EPS
  · rw [if_pos hfeas]
    simp only [plan_full_choreography_generic_core]
    set TD := total_duration mandatory_order with hTD
    rw [if_neg (not_lt.mpr hfeas)]
    have hfeas' : (22539 : ℚ)/200 ≤
        min (song.getD DEFAULT_TOTAL_TIME_SECONDS) ABSOLUTE_MAX_SECONDS * sf + EPS := by
      rw [td_required] at hfeas
      exact hfeas
    have hmand_le : TD ≤
        min (song.getD DEFAULT_TOTAL_TIME_SECONDS) ABSOLUTE_MAX_SECONDS * sf + EPS := by
      rw [hTD, td_mandatory]
      linarith
    rw [if_neg (not_lt.mpr hmand_le)]
    have hrem0 : ¬ ((min (song.getD DEFAULT_TOTAL_TIME_SECONDS) ABSOLUTE_MAX_SECONDS * sf -
        TD) - 0 < -EPS) := by
      rw [hTD, td_mandatory]
      rw [not_lt]
      unfold EPS at hfeas' ⊢
      linarith
    simp only [mandatory_order_eq]
    rw [segLoop_min_step, segLoop_min_step, segLoop_min_step, segLoop_min_step,
      segLoop_min_step, segLoop_min_step, segLoop_min_step]
    · simp only [segLoop, List.append_assoc, List.singleton_append, List.cons_append,
        List.nil_append]
      rw [if_neg (by
        have : TD = total_duration [POSE_STAND_INIT, POSE_HELLO, POSE_STAND_ZERO, POSE_SIT,
            POSE_SIT_RELAX, POSE_STAND, POSE_WIPE_FOREHEAD, POSE_CROUCH] := by
          rw [hTD, mandatory_order_eq]
        rw [← this]
        exact not_lt.mpr hmand_le)]
    · rfl
    · exact hrem0
    · rfl
    · exact hrem0
    · rfl
    · exact hrem0
    · rfl
    · exact hrem0
    · rfl
    · exact hrem0
    · rfl
    · exact hrem0
    · rfl
    · exact hrem0
  · rw [if_neg hfeas]
    simp only [plan_full_choreography_generic_core]
    rw [if_pos (not_le.mp hfeas)]

theorem td_mandatory_lit :
    total_duration [POSE_STAND_INIT, POSE_HELLO, POSE_STAND_ZERO, POSE_SIT,
      POSE_SIT_RELAX, POSE_STAND, POSE_WIPE_FOREHEAD, POSE_CROUCH] = 41529/500 :=
  mandatory_order_eq ▸ td_mandatory

theorem td_required_interm_lit :
    total_duration [POSE_ROTATION_HANDGUN, POSE_DIAGONAL_LEFT, POSE_DIAGONAL_RIGHT,
      POSE_MOVE_FORWARD, POSE_MOVE_BACKWARD] = 29637/1000 := by
  simp only [total_duration, List.map_cons, List.map_nil, List.sum_cons, List.sum_nil,
    POSE_ROTATION_HANDGUN, POSE_DIAGONAL_LEFT, POSE_DIAGONAL_RIGHT, POSE_MOVE_FORWARD,
    POSE_MOVE_BACKWARD]
  norm_num

theorem plan_choreo_core_eq (song : Option ℚ) (sf : ℚ) :
    plan_full_choreography_core song sf =
      if total_duration required_poses_for_time_check ≤
          min (song.getD DEFAULT_TOTAL_TIME_SECONDS) ABSOLUTE_MAX_SECONDS * sf + EPS
      then some enforced_min_sequence else none := by
  by_cases hfeas : total_duration required_poses_for_time_check ≤
      min (song.getD DEFAULT_TOTAL_TIME_SECONDS) ABSOLUTE_MAX_SECONDS * sf + EPS
  · rw [if_pos hfeas]
    simp only [plan_full_choreography_core]
    rw [plan_generic_min_eq, if_pos hfeas]
    simp only [mandatory_order_eq]
    show (if total_duration [POSE_STAND_INIT, POSE_HELLO, POSE_STAND_ZERO, POSE_SIT,
        POSE_SIT_RELAX, POSE_STAND, POSE_WIPE_FOREHEAD, POSE_CROUCH] +
        total_duration [POSE_ROTATION_HANDGUN, POSE_DIAGONAL_LEFT, POSE_DIAGONAL_RIGHT,
          POSE_MOVE_FORWARD, POSE_MOVE_BACKWARD] >
        min (song.getD DEFAULT_TOTAL_TIME_SECONDS) ABSOLUTE_MAX_SECONDS * sf + EPS then
        some [POSE_STAND_INIT, POSE_HELLO, POSE_STAND_ZERO, POSE_SIT, POSE_SIT_RELAX,
          POSE_STAND, POSE_WIPE_FOREHEAD, POSE_CROUCH]
      else some enforced_min_sequence) = some enforced_min_sequence
    rw [if_neg (by
      rw [td_mandatory_lit, td_required_interm_lit, td_required] at *
      rw [not_lt]
      linarith)]
  · rw [if_neg hfeas]
    simp only [plan_full_choreography_core]
    rw [plan_generic_min_eq, if_neg hfeas]

/-! ## Single-step evaluation lemmas for the minimal-mode BFS -/

theorem bfsAux_nil (mode : Mode) (pool : List Pose) (end_pose : Pose) (budget : ℚ)
    (fuel : ℕ) (visited : List VisKey) (best : Option (List Pose)) (bt : ℚ) :
    bfsAux mode pool end_pose budget fuel [] visited best bt =
      some (match mode with
            | Mode.min => none
            | Mode.max => best) := by
  cases fuel <;> rfl

theorem bfs_min_ret {pool : List Pose} {end_pose : Pose} {budget : ℚ} {fuel : ℕ}
    {n : Node} {rest : List Node} {visited : List VisKey} {best : Option (List Pose)}
    {bt : ℚ} (hhit : state_satisfies n.state end_pose.pre = true) :
    bfsAux Mode.min pool end_pose budget (fuel + 1) (n :: rest) visited best bt =
      some (some n.path) := by
  simp [bfsAux, hhit]

theorem bfs_min_expand {pool : List Pose} {end_pose : Pose} {budget : ℚ} {fuel : ℕ}
    {n : Node} {rest : List Node} {visited : List VisKey} {best : Option (List Pose)}
    {bt : ℚ} (hhit : state_satisfies n.state end_pose.pre = false)
    (hlen : n.path.length < MAX_INTERMEDIATES_PER_SEGMENT)
    (hvis : visited.any (visKeyEq (nodeKey n)) = false) :
    bfsAux Mode.min pool end_pose budget (fuel + 1) (n :: rest) visited best bt =
      bfsAux Mode.min pool end_pose budget fuel (rest ++ expandNode pool budget n)
        (nodeKey n :: visited) best bt := by
  simp only [bfsAux]
  rw [if_neg (by simp [hhit]), if_neg (not_le.mpr hlen), if_neg (by simp [hvis])]
  simp [hhit]

theorem bfs_min_prune {pool : List Pose} {end_pose : Pose} {budget : ℚ} {fuel : ℕ}
    {n : Node} {rest : List Node} {visited : List VisKey} {best : Option (List Pose)}
    {bt : ℚ} (hhit : state_satisfies n.state end_pose.pre = false)
    (hlen : n.path.length < MAX_INTERMEDIATES_PER_SEGMENT)
    (hvis : visited.any (visKeyEq (nodeKey n)) = true) :
    bfsAux Mode.min pool end_pose budget (fuel + 1) (n :: rest) visited best bt =
      bfsAux Mode.min pool end_pose budget fuel rest visited best bt := by
  simp only [bfsAux]
  rw [if_neg (by simp [hhit]), if_neg (not_le.mpr hlen), if_pos hvis]
  simp [hhit]

/-- Once the BFS loop finishes within some fuel, any larger fuel gives the
same answer. -/
theorem bfs_fuel_ge (mode : Mode) (pool : List Pose) (end_pose : Pose) (budget : ℚ) :
    ∀ f1 f2 q visited best bt r,
      bfsAux mode pool end_pose budget f1 q visited best bt = some r → f1 ≤ f2 →
      bfsAux mode pool end_pose budget f2 q visited best bt = some r := by
  intro f1
  induction f1 with
  | zero =>
      intro f2 q visited best bt r h hle
      cases q with
      | nil =>
          rw [bfsAux_nil] at h ⊢
          exact h
      | cons n rest => simp [bfsAux] at h
  | succ f ih =>
      intro f2 q visited best bt r h hle
      cases q with
      | nil =>
          rw [bfsAux_nil] at h ⊢
          exact h
      | cons n rest =>
          cases f2 with
          | zero => omega
          | succ f2' =>
              simp only [bfsAux] at h ⊢
              by_cases hgoal : mode = Mode.min ∧ state_satisfies n.state end_pose.pre = true
              · rw [if_pos hgoal] at h ⊢
                exact h
              · rw [if_neg hgoal] at h ⊢
                by_cases hmax : MAX_INTERMEDIATES_PER_SEGMENT ≤ n.path.length
                · rw [if_pos hmax] at h ⊢
                  exact ih _ _ _ _ _ _ h (by omega)
                · rw [if_neg hmax] at h ⊢
                  by_cases hvis : visited.any (visKeyEq (nodeKey n)) = true
                  · rw [if_pos hvis] at h ⊢
                    exact ih _ _ _ _ _ _ h (by omega)
                  · rw [if_neg hvis] at h ⊢
                    exact ih _ _ _ _ _ _ h (by omega)

theorem cs_exp0 : expandNode csPool 1 ⟨csS0, 0, []⟩ =
    [⟨csSp, 0 + 504/1000, [csP1]⟩, ⟨csSp, 0 + 498/1000, [csP2]⟩,
     ⟨csSq, 0 + 1/10, [csT1]⟩] := by
  simp [expandNode, csPool, List.filterMap_cons, csP1, csP2, csG, csT1, csT2, csS0, csSp,
    csSq, state_satisfies, lookupSt, apply_pose, dictInsert, List.find?, EPS]
  norm_num

theorem cs_expA1 : expandNode csPool 1 ⟨csSp, 0 + 504/1000, [csP1]⟩ = [] := by
  simp [expandNode, csPool, List.filterMap_cons, csP1, csP2, csG, csT1, csT2, csSp,
    state_satisfies, lookupSt, apply_pose, dictInsert, List.find?, EPS]
  norm_num

theorem cs_expA3 : expandNode csPool 1 ⟨csSq, 0 + 1/10, [csT1]⟩ =
    [⟨csSpq, 0 + 1/10 + 1/10, [csT1, csT2]⟩] := by
  simp [expandNode, csPool, List.filterMap_cons, csP1, csP2, csG, csT1, csT2, csSq, csSpq,
    state_satisfies, lookupSt, apply_pose, dictInsert, List.find?, EPS]
  norm_num

theorem cs_expB : expandNode csPool 1 ⟨csSpq, 0 + 1/10 + 1/10, [csT1, csT2]⟩ =
    [⟨[("g", true), ("p", true), ("q", true)], 0 + 1/10 + 1/10 + 5/10,
      [csT1, csT2, csG]⟩] := by
  simp [expandNode, csPool, List.filterMap_cons, csP1, csP2, csG, csT1, csT2, csSpq,
    state_satisfies, lookupSt, apply_pose, dictInsert, List.find?, EPS]
  norm_num

theorem cs_bfs : bfsAux Mode.min csPool csEnd 1 6 [⟨csS0, 0, []⟩] [] none (-1) =
    some (some [csT1, csT2, csG]) := by
  rw [show (6 : ℕ) = 5 + 1 from rfl, bfs_min_expand, cs_exp0, List.nil_append,
    show (5 : ℕ) = 4 + 1 from rfl, bfs_min_expand, cs_expA1, List.append_nil,
    show (4 : ℕ) = 3 + 1 from rfl, bfs_min_prune,
    show (3 : ℕ) = 2 + 1 from rfl, bfs_min_expand, cs_expA3, List.nil_append,
    show (2 : ℕ) = 1 + 1 from rfl, bfs_min_expand, cs_expB, List.nil_append,
    show (1 : ℕ) = 0 + 1 from rfl, bfs_min_ret]
  all_goals try rfl
  all_goals try decide
  simp only [List.any_cons, List.any_nil, visKeyEq, nodeKey, stSetEq, csSp, csS0, csP1,
    csP2, pyRound2, Bool.or_eq_true, Bool.and_eq_true, decide_eq_true_eq]
  norm_num [round_eq]

theorem cs_eval : plan_segment_min csS0 csEnd csPool 1 = some [csT1, csT2, csG] := by
  unfold plan_segment_min plan_segment_internal
  rw [if_neg (by decide)]
  have h7 : ((csPool.length + 1) ^ 7 : ℕ) = 279936 := rfl
  rw [h7, bfs_fuel_ge Mode.min csPool csEnd 1 6 279936 _ _ _ _ _ cs_bfs (by norm_num)]

/-! ## Helper facts for the claim theorems -/

theorem td_enforced : total_duration enforced_min_sequence = 22539/200 := by
  simp only [enforced_min_sequence, total_duration, List.map_cons, List.map_nil,
    List.sum_cons, List.sum_nil, POSE_STAND_INIT, POSE_HELLO, POSE_STAND_ZERO, POSE_SIT,
    POSE_SIT_RELAX, POSE_STAND, POSE_WIPE_FOREHEAD, POSE_CROUCH, POSE_ROTATION_HANDGUN,
    POSE_DIAGONAL_LEFT, POSE_DIAGONAL_RIGHT, POSE_MOVE_FORWARD, POSE_MOVE_BACKWARD]
  norm_num

theorem plan_min_ok {song : Option ℚ} {sf : ℚ} {seq : List Pose}
    (h : plan_full_choreography song sf = Except.ok (some seq)) :
    seq = enforced_min_sequence ∧
      total_duration required_poses_for_time_check ≤
        min (song.getD DEFAULT_TOTAL_TIME_SECONDS) ABSOLUTE_MAX_SECONDS * sf + EPS := by
  unfold plan_full_choreography at h
  by_cases hsf : sf ≤ 0
  · rw [if_pos hsf] at h
    exact Except.noConfusion h
  · rw [if_neg hsf] at h
    have hcore : plan_full_choreography_core song sf = some seq := by
      injection h
    rw [plan_choreo_core_eq] at hcore
    by_cases hfeas : total_duration required_poses_for_time_check ≤
        min (song.getD DEFAULT_TOTAL_TIME_SECONDS) ABSOLUTE_MAX_SECONDS * sf + EPS
    · rw [if_pos hfeas] at hcore
      exact ⟨(Option.some_inj.mp hcore).symm, hfeas⟩
    · rw [if_neg hfeas] at hcore
      exact Option.noConfusion hcore

theorem plan_max_ok {song : Option ℚ} {sf : ℚ} {seq : List Pose}
    (h : plan_full_choreography_maximal song sf = Except.ok (some seq)) :
    plan_full_choreography_generic_core song Mode.max sf = some seq := by
  unfold plan_full_choreography_maximal at h
  by_cases hsf : sf ≤ 0
  · rw [if_pos hsf] at h
    exact Except.noConfusion h
  · rw [if_neg hsf] at h
    injection h

/-- Concrete run used by the witnesses: default song length, unit speed. -/
theorem plan_min_default_eval :
    plan_full_choreography none 1 = Except.ok (some enforced_min_sequence) := by
  unfold plan_full_choreography
  rw [if_neg (by norm_num), plan_choreo_core_eq, if_pos (by
    rw [td_required]
    norm_num [DEFAULT_TOTAL_TIME_SECONDS, ABSOLUTE_MAX_SECONDS, EPS])]

theorem sub_mand_enforced : List.Sublist mandatory_order enforced_min_sequence := by
  rw [mandatory_order_eq]
  show List.Sublist _ [POSE_STAND_INIT, POSE_HELLO, POSE_STAND_ZERO, POSE_SIT,
    POSE_SIT_RELAX, POSE_STAND, POSE_WIPE_FOREHEAD, POSE_ROTATION_HANDGUN,
    POSE_DIAGONAL_LEFT, POSE_DIAGONAL_RIGHT, POSE_MOVE_FORWARD, POSE_MOVE_BACKWARD,
    POSE_CROUCH]
  apply List.Sublist.cons₂
  apply List.Sublist.cons₂
  apply List.Sublist.cons₂
  apply List.Sublist.cons₂
  apply List.Sublist.cons₂
  apply List.Sublist.cons₂
  apply List.Sublist.cons₂
  apply List.Sublist.cons
  apply List.Sublist.cons
  apply List.Sublist.cons
  apply List.Sublist.cons
  apply List.Sublist.cons
  exact List.Sublist.refl [POSE_CROUCH]

/-! ## Claim theorems -/

/-- C1: for every non-None result of `plan_full_choreography` (minimal mode,
including the required-intermediate enforcement splice) and of
`plan_full_choreography_maximal`, with a positive speed factor (encoded by the
`Except.ok` outcome), the total raw duration of the returned poses is at most
`min(targetDuration-or-default, 117.0) * speedFactor + 1e-6`. -/
theorem claim_C1 : ∀ (song : Option ℚ) (sf : ℚ) (seq : List Pose),
    (plan_full_choreography song sf = Except.ok (some seq) ∨
     plan_full_choreography_maximal song sf = Except.ok (some seq)) →
    total_duration seq ≤
      min (song.getD DEFAULT_TOTAL_TIME_SECONDS) ABSOLUTE_MAX_SECONDS * sf + EPS := by
  intro song sf seq h
  rcases h with h | h
  · obtain ⟨rfl, hfeas⟩ := plan_min_ok h
    rw [td_enforced]
    rw [td_required] at hfeas
    exact hfeas
  · exact generic_core_cap (plan_max_ok h)

theorem claim_C1_witness : total_duration enforced_min_sequence ≤
    min ((none : Option ℚ).getD DEFAULT_TOTAL_TIME_SECONDS) ABSOLUTE_MAX_SECONDS * 1 +
      EPS :=
  claim_C1 none 1 enforced_min_sequence (Or.inl plan_min_default_eval)

/-- C2: every choreography returned by `plan_full_choreography` (including the
spliced-in required intermediates) or `plan_full_choreography_maximal`
satisfies the adjacent-pair invariant: folding the `post` mappings
left-to-right from the empty state, the state after `p[i]` satisfies
`p[i+1].pre`. -/
theorem claim_C2 : ∀ (song : Option ℚ) (sf : ℚ) (seq : List Pose),
    (plan_full_choreography song sf = Except.ok (some seq) ∨
     plan_full_choreography_maximal song sf = Except.ok (some seq)) →
    adjacentOK seq = true := by
  intro song sf seq h
  rcases h with h | h
  · obtain ⟨rfl, -⟩ := plan_min_ok h
    rfl
  · rcases generic_core_structure (plan_max_ok h) with ⟨ext, rfl, hchain, -, -⟩
    exact hchain

theorem claim_C2_witness : adjacentOK enforced_min_sequence = true :=
  claim_C2 none 1 enforced_min_sequence (Or.inl plan_min_default_eval)

/-- C3: every returned choreography (both planners, and the enforcement splice
preserves this) contains the 8 mandatory poses of `mandatory_order` as a
subsequence in that order, starts with `StandInit` and ends with `Crouch`. -/
theorem claim_C3 : ∀ (song : Option ℚ) (sf : ℚ) (seq : List Pose),
    (plan_full_choreography song sf = Except.ok (some seq) ∨
     plan_full_choreography_maximal song sf = Except.ok (some seq)) →
    List.Sublist mandatory_order seq ∧ seq.head? = some POSE_STAND_INIT ∧
      seq.getLast? = some POSE_CROUCH := by
  intro song sf seq h
  rcases h with h | h
  · obtain ⟨rfl, -⟩ := plan_min_ok h
    exact ⟨sub_mand_enforced, rfl, rfl⟩
  · rcases generic_core_structure (plan_max_ok h) with ⟨ext, rfl, -, hsub, hlast⟩
    have hext : ext ≠ [] := by
      intro hx
      rw [hx] at hsub
      have := List.sublist_nil.mp hsub
      exact List.cons_ne_nil _ _ this
    refine ⟨?_, rfl, ?_⟩
    · rw [mandatory_order_eq]
      exact List.Sublist.cons₂ _ hsub
    · rcases List.exists_cons_of_ne_nil hext with ⟨x, xs, rfl⟩
      rw [List.getLast?_cons_cons]
      exact hlast

theorem claim_C3_witness : List.Sublist mandatory_order enforced_min_sequence ∧
    enforced_min_sequence.head? = some POSE_STAND_INIT ∧
    enforced_min_sequence.getLast? = some POSE_CROUCH :=
  claim_C3 none 1 enforced_min_sequence (Or.inl plan_min_default_eval)

/-- C4: whenever `plan_full_choreography` returns a sequence (the
required-set feasibility check passed), the sequence contains each of the five
required-intermediate file identifiers at least once. -/
theorem claim_C4 : ∀ (song : Option ℚ) (sf : ℚ) (seq : List Pose),
    plan_full_choreography song sf = Except.ok (some seq) →
    ∀ fid ∈ REQUIRED_INTERMEDIATE_FILE_IDS, fid ∈ seq.map (fun p => p.file_id) := by
  intro song sf seq h
  obtain ⟨rfl, -⟩ := plan_min_ok h
  decide

theorem claim_C4_witness :
    "1-Rotation_handgun_object" ∈ enforced_min_sequence.map (fun p => p.file_id) ∧
    "9-Diagonal_left" ∈ enforced_min_sequence.map (fun p => p.file_id) ∧
    "10-Diagonal_right" ∈ enforced_min_sequence.map (fun p => p.file_id) ∧
    "7-Move_forward" ∈ enforced_min_sequence.map (fun p => p.file_id) ∧
    "8-Move_backward" ∈ enforced_min_sequence.map (fun p => p.file_id) :=
  ⟨claim_C4 none 1 enforced_min_sequence plan_min_default_eval _ (by decide),
   claim_C4 none 1 enforced_min_sequence plan_min_default_eval _ (by decide),
   claim_C4 none 1 enforced_min_sequence plan_min_default_eval _ (by decide),
   claim_C4 none 1 enforced_min_sequence plan_min_default_eval _ (by decide),
   claim_C4 none 1 enforced_min_sequence plan_min_default_eval _ (by decide)⟩

/-- C7: `compute_uniform_segment_times` is total (never raises): with the
8-pose mandatory order there are 7 segments; a non-positive remainder yields
seven zeros, otherwise the remainder is split uniformly over the 7 segments. -/
theorem claim_C7 : mandatory_order.length - 1 = 7 ∧ ∀ total_time : ℚ,
    compute_uniform_segment_times total_time =
      if total_time - total_duration mandatory_order ≤ 0 then List.replicate 7 0
      else List.replicate 7 ((total_time - total_duration mandatory_order) / 7) := by
  refine ⟨rfl, fun t => ?_⟩
  simp only [compute_uniform_segment_times]
  have h7 : mandatory_order.length - 1 = 7 := rfl
  rw [h7]
  by_cases hc : t - total_duration mandatory_order ≤ 0
  · rw [if_pos hc, if_pos hc]
  · rw [if_neg hc, if_neg hc]
    norm_num

/-- C9: the planners raise (modelled as `Except.error`) exactly when the speed
factor is non-positive; for every positive speed factor both planners return
an `Except.ok` carrying an optional sequence, so every in-domain failure is
the absence of a result rather than an exception. -/
theorem claim_C9 : ∀ (song : Option ℚ) (sf : ℚ),
    ((∃ e, plan_full_choreography song sf = Except.error e) ↔ sf ≤ 0) ∧
    ((∃ e, plan_full_choreography_maximal song sf = Except.error e) ↔ sf ≤ 0) ∧
    ((∃ r, plan_full_choreography song sf = Except.ok r) ↔ 0 < sf) ∧
    ((∃ r, plan_full_choreography_maximal song sf = Except.ok r) ↔ 0 < sf) := by
  intro song sf
  unfold plan_full_choreography plan_full_choreography_maximal
  by_cases h : sf ≤ 0
  · rw [if_pos h, if_pos h]
    refine ⟨⟨fun _ => h, fun _ => ⟨_, rfl⟩⟩, ⟨fun _ => h, fun _ => ⟨_, rfl⟩⟩,
      ⟨?_, ?_⟩, ⟨?_, ?_⟩⟩ <;> intro hx
    · rcases hx with ⟨r, hr⟩
      exact Except.noConfusion hr
    · exact absurd h (not_le.mpr hx)
    · rcases hx with ⟨r, hr⟩
      exact Except.noConfusion hr
    · exact absurd h (not_le.mpr hx)
  · rw [if_neg h, if_neg h]
    refine ⟨⟨?_, fun hx => absurd hx h⟩, ⟨?_, fun hx => absurd hx h⟩,
      ⟨fun _ => not_le.mp h, fun _ => ⟨_, rfl⟩⟩, ⟨fun _ => not_le.mp h, fun _ => ⟨_, rfl⟩⟩⟩
    · rintro ⟨e, he⟩
      exact Except.noConfusion he
    · rintro ⟨e, he⟩
      exact Except.noConfusion he

/-- C10: `state_satisfies state req` holds exactly when every key of `req`
present in `state` carries the required value (absent keys are ignored), so
the empty state satisfies every requirement; in particular the planner's
initial empty state vacuously satisfies the first mandatory pose's
precondition `{"standing": true}`. -/
theorem claim_C10 : ∀ (s : St) (req : List (String × Bool)),
    (state_satisfies s req = true ↔
      ∀ k v, (k, v) ∈ req → ∀ b, lookupSt s k = some b → b = v) ∧
    state_satisfies [] req = true ∧
    mandatory_order.head? = some POSE_STAND_INIT ∧
    POSE_STAND_INIT.pre = [("standing", true)] ∧
    state_satisfies [] POSE_STAND_INIT.pre = true := by
  intro s req
  refine ⟨⟨?_, ?_⟩, state_satisfies_nil req, rfl, rfl, rfl⟩
  · intro h k v hkv b hb
    have h2 := List.all_eq_true.mp h (k, v) hkv
    rw [show lookupSt s (k, v).1 = some b from hb] at h2
    exact of_decide_eq_true h2
  · intro h
    apply List.all_eq_true.mpr
    intro kv hkv
    show (match lookupSt s kv.1 with
          | some w => decide (w = kv.2)
          | none => true) = true
    rcases hl : lookupSt s kv.1 with _ | b
    · rfl
    · exact decide_eq_true (h kv.1 kv.2 (by simpa using hkv) b hl)

/-- C5 counterexample: at this concrete input the minimal-mode segment
planner returns a 3-pose path although a 2-pose sequence of pool poses bridges
the segment within the budget: the visited-set pruning key (state snapshot,
2-decimal rounded time, path length) collides for the 0.504s and 0.498s
branches, the cheaper branch is pruned, and only it admitted the 2-pose
completion - so the first-found path is not shortest by pose count. -/
theorem claim_C5_counterexample :
    plan_segment_min csS0 csEnd csPool 1 = some [csT1, csT2, csG] ∧
    (∀ p ∈ [csP2, csG], p ∈ csPool) ∧
    chainFrom csS0 [csP2, csG] = true ∧
    state_satisfies (foldPoses csS0 [csP2, csG]) csEnd.pre = true ∧
    total_duration [csP2, csG] ≤ 1 + EPS ∧
    [csP2, csG].length ≤ MAX_INTERMEDIATES_PER_SEGMENT ∧
    [csP2, csG].length < [csT1, csT2, csG].length := by
  refine ⟨cs_eval, ?_, rfl, rfl, ?_, by decide, by decide⟩
  · intro p hp
    simp only [List.mem_cons, List.not_mem_nil, or_false] at hp
    rcases hp with rfl | rfl
    · exact List.mem_cons_of_mem _ (List.mem_cons_self _ _)
    · exact List.mem_cons_of_mem _ (List.mem_cons_of_mem _ (List.mem_cons_self _ _))
  · norm_num [total_duration, csP2, csG, EPS]

/-- C5 (amended): if the start state already satisfies the end pose's
preconditions, the minimal-mode segment planner returns the empty path with no
search; and every path it returns is a sound bridge - stepwise executable from
the start state, at most 6 poses, reaching a state that satisfies the end
pose's preconditions, and (when non-empty) of total duration within the budget
plus the 1e-6 tolerance. Shortest-by-pose-count optimality does not hold in
general because of the visited-triple pruning (see the counterexample). -/
theorem claim_C5 : ∀ (start_state : St) (end_pose : Pose) (pool : List Pose) (budget : ℚ),
    (state_satisfies start_state end_pose.pre = true →
      plan_segment_min start_state end_pose pool budget = some []) ∧
    (∀ path, plan_segment_min start_state end_pose pool budget = some path →
      chainFrom start_state path = true ∧
      state_satisfies (foldPoses start_state path) end_pose.pre = true ∧
      path.length ≤ MAX_INTERMEDIATES_PER_SEGMENT ∧
      (path ≠ [] → total_duration path ≤ budget + EPS)) := by
  intro start_state e pool budget
  constructor
  · intro hsat
    unfold plan_segment_min plan_segment_internal
    rw [if_pos ⟨rfl, hsat⟩]
  · intro path h
    exact plan_segment_internal_sound h

theorem claim_C5_witness :
    plan_segment_min [("standing", true)] POSE_CROUCH [] 0 = some [] ∧
    state_satisfies (foldPoses [("standing", true)] []) POSE_CROUCH.pre = true := by
  have h := claim_C5 [("standing", true)] POSE_CROUCH [] 0
  have h1 := h.1 (by decide)
  exact ⟨h1, (h.2 [] h1).2.1⟩

/-- C8: every segment-planner call terminates - whenever the fuel is at least
the queue weight `(|pool|+1)^(7 - pathLength)` summed over the queue, the BFS
loop finishes (the queue empties or a result is returned), and the fuel used
by `plan_segment_internal` always suffices, so each call computes the finished
loop's answer in both modes. -/
theorem claim_C8 : ∀ (mode : Mode) (pool : List Pose) (end_pose : Pose) (budget : ℚ),
    (∀ fuel q visited best bt, queueWeight pool.length q ≤ fuel →
      (bfsAux mode pool end_pose budget fuel q visited best bt).isSome = true) ∧
    (∀ start_state : St, ∃ r,
      bfsAux mode pool end_pose budget ((pool.length + 1) ^ 7)
        [⟨start_state, 0, []⟩] [] none (-1) = some r ∧
      plan_segment_internal start_state end_pose pool budget mode =
        (if mode = Mode.min ∧ state_satisfies start_state end_pose.pre = true then some []
         else r)) := by
  intro mode pool end_pose budget
  refine ⟨fun fuel q visited best bt hw =>
    bfs_fuel_sufficient_aux mode pool end_pose budget fuel q visited best bt hw, ?_⟩
  intro start_state
  have hw : queueWeight pool.length [⟨start_state, 0, []⟩] ≤ (pool.length + 1) ^ 7 := by
    simp [queueWeight, nodeWeight]
  have hsome := bfs_fuel_sufficient_aux mode pool end_pose budget _ _ [] none (-1) hw
  rcases hopt : bfsAux mode pool end_pose budget ((pool.length + 1) ^ 7)
      [⟨start_state, 0, []⟩] [] none (-1) with _ | r
  · rw [hopt] at hsome
    exact absurd hsome (by simp)
  · refine ⟨r, rfl, ?_⟩
    unfold plan_segment_internal
    by_cases hc : mode = Mode.min ∧ state_satisfies start_state end_pose.pre = true
    · rw [if_pos hc, if_pos hc]
    · rw [if_neg hc, if_neg hc, hopt]

theorem claim_C8_witness :
    (bfsAux Mode.min [] POSE_CROUCH 0 1 [⟨[], 0, []⟩] [] none (-1)).isSome = true :=
  (claim_C8 Mode.min [] POSE_CROUCH 0).1 1 [⟨[], 0, []⟩] [] none (-1) (by decide)

/-- C6: the duration-matching selector tries the four windows in the fixed
order close `[0.9S, S]`, mid `[0.7S, 0.9S]`, far `[0.5S, 0.7S]`,
any `[0, 0.5S]`; each attempt calls the maximal planner with target duration
`min(window upper bound, 117)`, a candidate is accepted only if its effective
duration lies within the window bounds (upper bound with tolerance 1e-6), and
the first qualifying candidate is returned with no later window evaluated. -/
theorem claim_C6 : ∀ (S sf : ℚ),
    (∀ c, find_first_path_in_range (9/10 * S) (1 * S) (1 * S) sf = some c →
      find_best_path_for_duration S sf = some c) ∧
    (find_first_path_in_range (9/10 * S) (1 * S) (1 * S) sf = none →
      ∀ c, find_first_path_in_range (7/10 * S) (9/10 * S) (9/10 * S) sf = some c →
      find_best_path_for_duration S sf = some c) ∧
    (find_first_path_in_range (9/10 * S) (1 * S) (1 * S) sf = none →
      find_first_path_in_range (7/10 * S) (9/10 * S) (9/10 * S) sf = none →
      ∀ c, find_first_path_in_range (5/10 * S) (7/10 * S) (7/10 * S) sf = some c →
      find_best_path_for_duration S sf = some c) ∧
    (find_first_path_in_range (9/10 * S) (1 * S) (1 * S) sf = none →
      find_first_path_in_range (7/10 * S) (9/10 * S) (9/10 * S) sf = none →
      find_first_path_in_range (5/10 * S) (7/10 * S) (7/10 * S) sf = none →
      find_best_path_for_duration S sf =
        find_first_path_in_range (0 * S) (5/10 * S) (5/10 * S) sf) ∧
    (∀ lo hi cap_hint seq, find_first_path_in_range lo hi cap_hint sf = some seq →
      0 < cap_hint ∧
      plan_full_choreography_generic_core (some (min cap_hint MAX_TIME_LIMIT)) Mode.max sf
        = some seq ∧
      lo ≤ total_duration seq / sf ∧ total_duration seq / sf ≤ hi + EPS) := by
  intro S sf
  refine ⟨?_, ?_, ?_, ?_, ?_⟩
  · intro c hc
    simp only [find_best_path_for_duration]
    rw [hc]
  · intro h1 c hc
    simp only [find_best_path_for_duration]
    rw [h1, hc]
  · intro h1 h2 c hc
    simp only [find_best_path_for_duration]
    rw [h1, h2, hc]
  · intro h1 h2 h3
    simp only [find_best_path_for_duration]
    rw [h1, h2, h3]
  · intro lo hi cap_hint seq h
    simp only [find_first_path_in_range] at h
    by_cases hcap : cap_hint ≤ 0
    · rw [if_pos hcap] at h
      exact Option.noConfusion h
    · rw [if_neg hcap] at h
      rcases hplan : plan_full_choreography_generic_core (some (min cap_hint MAX_TIME_LIMIT))
          Mode.max sf with _ | q
      · rw [hplan] at h
        exact Option.noConfusion h
      · rw [hplan] at h
        have h2 : (if lo ≤ total_duration q / sf ∧ total_duration q / sf ≤ hi + EPS
            then some q else none) = some seq := h
        by_cases hin : lo ≤ total_duration q / sf ∧ total_duration q / sf ≤ hi + EPS
        · rw [if_pos hin] at h2
          have hq : q = seq := Option.some_inj.mp h2
          subst hq
          exact ⟨not_le.mp hcap, rfl, hin.1, hin.2⟩
        · rw [if_neg hin] at h2
          exact Option.noConfusion h2

theorem claim_C6_witness : find_best_path_for_duration 10 1 = none := by
  have hnone : ∀ lo hi cap_hint : ℚ, cap_hint ≤ 10 →
      find_first_path_in_range lo hi cap_hint 1 = none := by
    intro lo hi cap_hint hle
    simp only [find_first_path_in_range]
    by_cases hcap : cap_hint ≤ 0
    · rw [if_pos hcap]
    · rw [if_neg hcap]
      have hplan : plan_full_choreography_generic_core
          (some (min cap_hint MAX_TIME_LIMIT)) Mode.max 1 = none := by
        simp only [plan_full_choreography_generic_core]
        rw [if_pos (by
          rw [td_required]
          simp only [Option.getD_some]
          have hm1 : min cap_hint MAX_TIME_LIMIT ≤ cap_hint := min_le_left _ _
          have hm2 : min (min cap_hint MAX_TIME_LIMIT) ABSOLUTE_MAX_SECONDS ≤
              min cap_hint MAX_TIME_LIMIT := min_le_left _ _
          unfold EPS
          linarith)]
      rw [hplan]
  have h := (claim_C6 10 1).2.2.2.1
  rw [h (hnone _ _ _ (by norm_num)) (hnone _ _ _ (by norm_num))
    (hnone _ _ _ (by norm_num))]
  exact hnone _ _ _ (by norm_num)

end NAO
